import Mathlib

/-!
Verification of `pycqed/measurement/waveform_control/pulsar.py`.

This file is a shallow embedding of the parts of the `Pulsar` orchestrator and of
its AWG5014 / UHFQC / HDAWG8 backend mixins that the verified claims are about:

* name simplification (`simplify_name`, pulsar.py lines 1888-1896),
* the start/stop orchestration (`Pulsar.start`, `Pulsar.stop`,
  `Pulsar.awgs_with_waveforms`, lines 1562-1626),
* the AWG5014 waveform packing and programming path
  (`AWG5014Pulsar._program_awg`, lines 850-1003),
* the legacy AWG5014 path (`AWG5014Pulsar._program_awg_old`, lines 1005-1171),
* the UHFQC channel-activity check (`UHFQCPulsar._program_awg`, lines 105-201),
* the per-device programming loop (`Pulsar.program_awgs`, lines 1628-1656).

Waveform samples are modelled as integers: every claim depends only on decidable
equality of sample arrays and on comparison of individual samples with zero, and
the Python code applies exact (float) equality in exactly those places, so any
scalar type with decidable equality and a zero is a faithful sample domain.
-/

namespace PulsarModel

/-- A resolved per-channel sample array (a numpy array in the source). -/
abbrev Waveform := List Int

/-- The map from channel ids to sample arrays of one element (`cid_wfs` in
`AWG5014Pulsar._program_awg`), in Python dict iteration order. -/
abbrev CidWfs := List (String × Waveform)

/-- Dictionary lookup `cid_wfs.get(cid)` on the association list. -/
def lookupCid (cid_wfs : CidWfs) (cid : String) : Option Waveform :=
  (cid_wfs.find? (fun p => p.1 == cid)).map Prod.snd

/-- The loop body of `simplify_name` (pulsar.py line 1894):
`s[i] = '_' if s[i].isalnum() or s[i] == '-' else s[i]`.  Python's `str.isalnum`
is modelled by `Char.isAlphanum` (the names fed to `simplify_name` are ASCII). -/
def simplifyChar (c : Char) : Char :=
  if c.isAlphanum || c == '-' then '_' else c

/-- The index loop of `simplify_name` (pulsar.py lines 1892-1895): the source
converts the string to a list of characters and mutates entry `i` in place for
`i in range(len(s))`; the first argument counts the remaining iterations of that
`range`, so the loop runs `len(s)` times in total. -/
def simplifyLoop : Nat → List Char → Nat → List Char
  | 0, s, _ => s
  | fuel + 1, s, i =>
    if h : i < s.length then
      simplifyLoop fuel (s.set i (simplifyChar (s.get ⟨i, h⟩))) (i + 1)
    else s

/-- Function `simplify_name` (pulsar.py lines 1888-1896). -/
def simplify_name (s : List Char) : List Char :=
  simplifyLoop s.length s 0

theorem simplifyLoop_length (fuel : Nat) (s : List Char) (i : Nat) :
    (simplifyLoop fuel s i).length = s.length := by
  induction fuel generalizing s i with
  | zero => rfl
  | succ fuel ih =>
    rw [simplifyLoop]
    by_cases h : i < s.length
    · simp only [h, dite_true]
      rw [ih]
      simp
    · simp [h]

theorem simplifyLoop_getElem? (fuel : Nat) (s : List Char) (i j : Nat)
    (hfuel : s.length ≤ fuel + i) :
    (simplifyLoop fuel s i)[j]? =
      (s[j]?).map (fun c => if i ≤ j then simplifyChar c else c) := by
  induction fuel generalizing s i with
  | zero =>
    rcases Nat.lt_or_ge j s.length with hj | hj
    · have hij : ¬ (i ≤ j) := by omega
      rw [simplifyLoop]
      rw [List.getElem?_eq_getElem hj]
      simp [hij]
    · rw [simplifyLoop]
      rw [List.getElem?_eq_none hj]
      simp
  | succ fuel ih =>
    by_cases h : i < s.length
    · have hrw : simplifyLoop (fuel + 1) s i
          = simplifyLoop fuel (s.set i (simplifyChar (s.get ⟨i, h⟩))) (i + 1) := by
        rw [simplifyLoop]; simp [h]
      have hfuel' : (s.set i (simplifyChar (s.get ⟨i, h⟩))).length ≤ fuel + (i + 1) := by
        simp; omega
      rw [hrw, ih _ _ hfuel']
      rcases Nat.lt_trichotomy i j with hij | rfl | hij
      · have h1 : i + 1 ≤ j := hij
        have h2 : i ≤ j := Nat.le_of_lt hij
        have h3 : i ≠ j := Nat.ne_of_lt hij
        rw [List.getElem?_set_ne h3]
        simp [h1, h2]
      · rw [List.getElem?_set_self]
        rw [List.getElem?_eq_getElem h]
        have h1 : ¬ (i + 1 ≤ i) := by omega
        simp [h1, List.get_eq_getElem]
        exact h
      · have h1 : ¬ (i + 1 ≤ j) := by omega
        have h2 : ¬ (i ≤ j) := by omega
        have h3 : i ≠ j := by omega
        rw [List.getElem?_set_ne h3]
        simp [h1, h2]
    · have hrw : simplifyLoop (fuel + 1) s i = s := by
        rw [simplifyLoop]; simp [h]
      rcases Nat.lt_or_ge j s.length with hj | hj
      · have hij : ¬ (i ≤ j) := by omega
        rw [hrw, List.getElem?_eq_getElem hj]
        simp [hij]
      · rw [hrw, List.getElem?_eq_none hj]
        simp

/-- C9. `simplify_name(s)` returns a string of the same length in which every
alphanumeric character and every `'-'` of `s` is replaced by `'_'`, while every
other character of `s` is kept unchanged (pulsar.py lines 1888-1896: the guard
reads `s[i].isalnum() or s[i] == '-'` and assigns `'_'` when it holds, so the
function replaces exactly the alphanumerics and hyphens — the opposite of
sanitizing the non-alphanumeric characters). -/
theorem simplify_name_spec (s : List Char) :
    (simplify_name s).length = s.length ∧
    ∀ j : Nat, (simplify_name s)[j]? =
      (s[j]?).map (fun c => if c.isAlphanum || c == '-' then '_' else c) := by
  constructor
  · exact simplifyLoop_length s.length s 0
  · intro j
    have h := simplifyLoop_getElem? s.length s 0 j (by omega)
    rw [simplify_name, h]
    simp [simplifyChar]

/-! ### Start/stop orchestration (`Pulsar`, pulsar.py lines 1562-1626) -/

/-- The mutable `Pulsar` state consulted by `start` and `stop` (pulsar.py lines
1441-1458): the registered AWG names (`self.awgs`, a Python set, modelled as a
list in its iteration order), the per-AWG `{name}_active` parameter, the
`_awgs_with_waveforms` set, and the `master_awg` parameter. -/
structure PulsarState where
  awgs : List String
  active : String → Bool
  awgsWithWaveforms : List String
  masterAwg : Option String

/-- Method `Pulsar.active_awgs` (lines 1562-1570): the registered AWGs whose
`{name}_active` parameter is set. -/
def activeAwgs (st : PulsarState) : List String :=
  st.awgs.filter (fun a => st.active a)

/-- Computation `used_awgs = set(self.active_awgs()) & awgs_with_waveforms` (lines 1592-1593
and 1622-1623). -/
def usedAwgs (st : PulsarState) : List String :=
  (activeAwgs st).filter (fun a => st.awgsWithWaveforms.contains a)

/-- Method `Pulsar.stop` (lines 1617-1626): `self._stop_awg(awg)` is invoked once per
element of `used_awgs`; the returned list records those invocations in order. -/
def stopCalls (st : PulsarState) : List String :=
  usedAwgs st

/-- The inner polling loop of `Pulsar.start` (lines 1606-1611) for one slave.
Time is measured in ticks of 0.1 s since `tstart`; `running t` tells whether the
slave reports a running state when queried at tick `t`.  The loop re-checks
`not (good or time.time() > tstart + 10)` each iteration: at tick `t ≤ 100` it
queries the slave and, on failure, sleeps one tick.  `fuel` counts remaining
iterations; callers pass `102`, which exceeds the at most `101 - t` iterations
the deadline permits, so the fuel is never exhausted before the deadline. -/
def pollFrom (fuel : Nat) (running : Nat → Bool) (t : Nat) : Option Nat :=
  match fuel with
  | 0 => none
  | fuel + 1 =>
    if 100 < t then none
    else if running t then some t
    else pollFrom fuel running (t + 1)

/-- The loop over slaves of `Pulsar.start` (lines 1602-1614): each slave is
polled against the shared deadline `tstart + 10`; a slave that reports running
hands the current tick to the next slave's loop.  Returns the finishing tick,
or the first slave whose polling timed out (the code then raises
`Exception('AWG {} did not start in 10s')`, the error the spec names
`SlaveStartTimeoutError`). -/
def pollSlaves (running : String → Nat → Bool) : List String → Nat → Except String Nat
  | [], t => .ok t
  | s :: rest, t =>
    match pollFrom 102 (running s) t with
    | some t' => pollSlaves running rest t'
    | none => .error s

/-- The runtime failure of `Pulsar.start` (line 1613): slave `awg` did not
report running within the 10 s deadline.  The spec names this exception
`SlaveStartTimeoutError`. -/
inductive StartError where
  | slaveStartTimeout (awg : String)
deriving DecidableEq

/-- The slaves started and polled by `Pulsar.start` when a master is configured:
every used AWG other than the master (lines 1599-1605). -/
def startSlaves (st : PulsarState) (m : String) : List String :=
  (usedAwgs st).filter (fun a => !(a == m))

/-- Method `Pulsar.start` (lines 1582-1615).  Returns the ordered list of `_start_awg`
invocations together with the raised error, if any.  With no master every used
AWG is started; with a master the slaves are started, then polled, and the
master's `_start_awg` is invoked only after every slave reported running. -/
def start (st : PulsarState) (running : String → Nat → Bool) :
    List String × Option StartError :=
  match st.masterAwg with
  | none => (usedAwgs st, none)
  | some m =>
    let slaves := startSlaves st m
    match pollSlaves running slaves 0 with
    | .ok _ => (slaves ++ [m], none)
    | .error s => (slaves, some (.slaveStartTimeout s))

/-- C6. `stop()` invokes the device stop operation on exactly the AWGs that
are both currently active and in the has-programmed-waveforms set, and on no
other AWG (pulsar.py lines 1617-1626 intersect `active_awgs()` with
`awgs_with_waveforms()` and stop every member of the intersection). -/
theorem stop_exactly_active_with_waveforms (st : PulsarState) (a : String) :
    a ∈ stopCalls st ↔ (a ∈ st.awgs ∧ st.active a = true ∧ a ∈ st.awgsWithWaveforms) := by
  simp only [stopCalls, usedAwgs, activeAwgs, List.mem_filter, List.contains,
    List.elem_iff, decide_eq_true_eq, and_assoc]

theorem pollFrom_some_le (fuel : Nat) (running : Nat → Bool) (t t' : Nat)
    (h : pollFrom fuel running t = some t') :
    t' ≤ 100 ∧ running t' = true := by
  induction fuel generalizing t with
  | zero => simp [pollFrom] at h
  | succ fuel ih =>
    rw [pollFrom] at h
    by_cases h1 : 100 < t
    · simp [h1] at h
    · simp only [h1, if_false] at h
      by_cases h2 : running t
      · simp [h2] at h
        subst h
        exact ⟨by omega, h2⟩
      · simp only [h2, if_false] at h
        exact ih (t + 1) h

theorem pollFrom_none_all (fuel : Nat) (running : Nat → Bool) (t : Nat)
    (hfuel : 101 ≤ fuel + t) (h : pollFrom fuel running t = none) :
    ∀ u, t ≤ u → u ≤ 100 → running u = false := by
  induction fuel generalizing t with
  | zero => intro u hu1 hu2; omega
  | succ fuel ih =>
    intro u hu1 hu2
    rw [pollFrom] at h
    have h1 : ¬ (100 < t) := by omega
    simp only [h1, if_false] at h
    by_cases h2 : running t
    · simp [h2] at h
    · rcases Nat.eq_or_lt_of_le hu1 with rfl | hlt
      · exact Bool.eq_false_iff.mpr h2
      · simp only [h2, if_false] at h
        exact ih (t + 1) (by omega) h u hlt hu2

theorem pollFrom_none_of_never (fuel : Nat) (running : Nat → Bool) (t : Nat)
    (h : ∀ u, u ≤ 100 → running u = false) :
    pollFrom fuel running t = none := by
  induction fuel generalizing t with
  | zero => rfl
  | succ fuel ih =>
    rw [pollFrom]
    by_cases h1 : 100 < t
    · simp [h1]
    · have h2 : running t = false := h t (by omega)
      simp [h1, h2, ih (t + 1)]

theorem pollSlaves_ok_all (running : String → Nat → Bool) (slaves : List String)
    (t t' : Nat) (h : pollSlaves running slaves t = .ok t') :
    ∀ s ∈ slaves, ∃ u, u ≤ 100 ∧ running s u = true := by
  induction slaves generalizing t with
  | nil => intro s hs; simp at hs
  | cons a rest ih =>
    intro s hs
    rw [pollSlaves] at h
    cases hp : pollFrom 102 (running a) t with
    | none => rw [hp] at h; simp at h
    | some t1 =>
      rw [hp] at h
      rcases List.mem_cons.mp hs with rfl | hs'
      · obtain ⟨h1, h2⟩ := pollFrom_some_le 102 (running s) t t1 hp
        exact ⟨t1, h1, h2⟩
      · exact ih t1 h s hs'

theorem pollSlaves_error_mem (running : String → Nat → Bool) (slaves : List String)
    (t : Nat) (s : String) (ht : t ≤ 100)
    (h : pollSlaves running slaves t = .error s) :
    s ∈ slaves ∧ ∃ t0, t0 ≤ 100 ∧ ∀ u, t0 ≤ u → u ≤ 100 → running s u = false := by
  induction slaves generalizing t with
  | nil => simp [pollSlaves] at h
  | cons a rest ih =>
    rw [pollSlaves] at h
    cases hp : pollFrom 102 (running a) t with
    | none =>
      rw [hp] at h
      simp only [Except.error.injEq] at h
      subst h
      refine ⟨List.mem_cons_self _ _, t, ht, ?_⟩
      exact pollFrom_none_all 102 (running a) t (by omega) hp
    | some t1 =>
      rw [hp] at h
      obtain ⟨h1, _⟩ := pollFrom_some_le 102 (running a) t t1 hp
      obtain ⟨hmem, hrest⟩ := ih t1 h1 h
      exact ⟨List.mem_cons_of_mem _ hmem, hrest⟩

theorem pollSlaves_error_of_never (running : String → Nat → Bool)
    (slaves : List String) (t : Nat) (s : String) (hs : s ∈ slaves)
    (hnever : ∀ u, u ≤ 100 → running s u = false) :
    ∃ s', pollSlaves running slaves t = .error s' := by
  induction slaves generalizing t with
  | nil => simp at hs
  | cons a rest ih =>
    rw [pollSlaves]
    cases hp : pollFrom 102 (running a) t with
    | none => exact ⟨a, rfl⟩
    | some t1 =>
      rcases List.mem_cons.mp hs with rfl | hs'
      · obtain ⟨h1, h2⟩ := pollFrom_some_le 102 (running s) t t1 hp
        rw [hnever t1 h1] at h2
        simp at h2
      · exact ih t1 hs'

theorem master_not_mem_startSlaves (st : PulsarState) (m : String) :
    m ∉ startSlaves st m := by
  intro hmem
  have := (List.mem_filter.mp hmem).2
  simp at this

/-- C1. With a master AWG configured, `start()` invokes the master's start
strictly after every slave — every AWG that is both active and in the
has-programmed-waveforms set, other than the master — has reported a running
state, each slave being polled within the 10 s deadline (100 ticks of 0.1 s);
if some slave never reports running within the deadline, `start()` raises the
slave-start-timeout error and the master's start is never invoked
(pulsar.py lines 1582-1615). -/
theorem start_master_last (st : PulsarState) (running : String → Nat → Bool)
    (m : String) (hm : st.masterAwg = some m) :
    ((start st running).2 = none →
      (start st running).1 = startSlaves st m ++ [m] ∧
      ∀ s ∈ startSlaves st m, ∃ u, u ≤ 100 ∧ running s u = true) ∧
    (∀ e, (start st running).2 = some e →
      (∃ s ∈ startSlaves st m, e = StartError.slaveStartTimeout s ∧
        ∃ t0, t0 ≤ 100 ∧ ∀ u, t0 ≤ u → u ≤ 100 → running s u = false) ∧
      m ∉ (start st running).1) ∧
    ((∃ s ∈ startSlaves st m, ∀ u, u ≤ 100 → running s u = false) →
      (start st running).2 ≠ none) := by
  have hstart : start st running =
      match pollSlaves running (startSlaves st m) 0 with
      | .ok _ => (startSlaves st m ++ [m], none)
      | .error s => (startSlaves st m, some (.slaveStartTimeout s)) := by
    rw [start, hm]
  refine ⟨?_, ?_, ?_⟩
  · intro hnone
    cases hps : pollSlaves running (startSlaves st m) 0 with
    | ok t' =>
      rw [hstart, hps]
      exact ⟨rfl, pollSlaves_ok_all running (startSlaves st m) 0 t' hps⟩
    | error s =>
      rw [hstart, hps] at hnone
      simp at hnone
  · intro e he
    cases hps : pollSlaves running (startSlaves st m) 0 with
    | ok t' =>
      rw [hstart, hps] at he
      simp at he
    | error s =>
      rw [hstart, hps] at he
      simp only [Option.some.injEq] at he
      obtain ⟨hmem, hwin⟩ :=
        pollSlaves_error_mem running (startSlaves st m) 0 s (by omega) hps
      constructor
      · exact ⟨s, hmem, he.symm, hwin⟩
      · rw [hstart, hps]
        exact master_not_mem_startSlaves st m
  · rintro ⟨s, hs, hnever⟩
    obtain ⟨s', hs'⟩ :=
      pollSlaves_error_of_never running (startSlaves st m) 0 s hs hnever
    rw [hstart, hs']
    simp

/-- A two-AWG setup used to witness `start_master_last`: both AWGs are active
and have programmed waveforms, `MAS` is the master and `SLV` the slave. -/
def demoState : PulsarState :=
  { awgs := ["MAS", "SLV"]
    active := fun _ => true
    awgsWithWaveforms := ["MAS", "SLV"]
    masterAwg := some "MAS" }

/-- A running-state oracle for the witness: every AWG always reports running. -/
def demoRunning : String → Nat → Bool := fun _ _ => true

/-- Witness for `start_master_last` at `demoState`/`demoRunning`. -/
theorem start_master_last_witness :
    (((start demoState demoRunning).2 = none →
      (start demoState demoRunning).1 = startSlaves demoState "MAS" ++ ["MAS"] ∧
      ∀ s ∈ startSlaves demoState "MAS", ∃ u, u ≤ 100 ∧ demoRunning s u = true) ∧
    (∀ e, (start demoState demoRunning).2 = some e →
      (∃ s ∈ startSlaves demoState "MAS", e = StartError.slaveStartTimeout s ∧
        ∃ t0, t0 ≤ 100 ∧ ∀ u, t0 ≤ u → u ≤ 100 → demoRunning s u = false) ∧
      "MAS" ∉ (start demoState demoRunning).1) ∧
    ((∃ s ∈ startSlaves demoState "MAS", ∀ u, u ≤ 100 → demoRunning s u = false) →
      (start demoState demoRunning).2 ≠ none)) ∧
    (start demoState demoRunning).1 = ["SLV", "MAS"] := by
  constructor
  · exact start_master_last demoState demoRunning "MAS" rfl
  · rfl

/-! ### AWG5014 waveform packing (`AWG5014Pulsar._program_awg`, lines 850-1003) -/

/-- Python slicing `cid[:3]` (pulsar.py lines 896 and 1367), character-based. -/
def strTake3 (s : String) : String := ⟨s.data.take 3⟩

/-- Method `Pulsar._awg5014_group_ids` (lines 1356-1367):
`[cid[:3], cid[:3] + '_m1', cid[:3] + '_m2']`. -/
def awg5014GroupIds (cid : String) : List String :=
  [strTake3 cid, strTake3 cid ++ "_m1", strTake3 cid ++ "_m2"]

/-- The channel groups involved in the sequence (lines 889-898): every `cid[:3]`
for which some channel waveform has a non-zero entry, deduplicated (a Python
set) and sorted. -/
def awg5014Grps (elements : List (String × CidWfs)) : List String :=
  (((elements.bind Prod.snd).filterMap
      (fun p => if p.2.any (fun x => !(x == 0)) then some (strTake3 p.1) else none)).dedup).insertionSort (· ≤ ·)

/-- Value `maxlen` (lines 908-910): the maximum sample-array length over the element's
channels.  The code folds `max` starting from `-inf`; every element reaching the
loop carries at least one channel waveform, for which the fold equals the
maximum length, so the base is modelled as 0. -/
def awg5014Maxlen (cid_wfs : CidWfs) : Nat :=
  cid_wfs.foldl (fun m p => max m p.2.length) 0

/-- Lines 915-920 for one channel id: `grp_wfs[cid] = cid_wfs.get(cid,
np.zeros(maxlen))` followed by `np.pad(..., (0, maxlen - len(...)), 'constant',
constant_values=0)` — the array is extended by trailing zeros to `maxlen`. -/
def awg5014GrpWf (cid_wfs : CidWfs) (maxlen : Nat) (cid : String) : Waveform :=
  let wf := (lookupCid cid_wfs cid).getD (List.replicate maxlen 0)
  wf ++ List.replicate (maxlen - wf.length) 0

/-- Modelled from the spec: `obj.pack_waveform(analog, marker1, marker2)` of the
Tektronix AWG5014 driver is not under `src/`; §4.3 of the spec describes it as
packing the marker bits into the analog array after padding.  It is modelled as
the samplewise tupling of the three equal-length arrays, which carries exactly
the information the packed array carries. -/
def pack_waveform (wf m1 m2 : Waveform) : List (Int × Int × Int) :=
  wf.zip (m1.zip m2)

/-- Key `wfname = el + '_' + grp` (line 925): the key under which the packed
waveform of element `el` and channel group `grp` is stored. -/
def awg5014WfKey (el grp : String) : String :=
  el ++ "_" ++ grp

/-- One warning of lines 922-924:
`log.warning('Element {el} starts with non zero entry on {name}.')`. -/
structure NonZeroStartWarning where
  element : String
  awg : String
deriving DecidableEq

/-- Lines 911-928 for one element and one channel group: arrange and pad the
group's waveforms, log a warning for each padded waveform whose first entry is
non-zero, and store the packed waveform under `el + '_' + grp`.  (The code
reads `grp_wfs[grp]`, `grp_wfs[grp + '_m1']`, `grp_wfs[grp + '_m2']`, which for
the 3-character groups produced by `awg5014Grps` are exactly the three group
ids.)  The first padded entry of a zero-length padded array is modelled as 0; the
code would fail on the empty-array index `[0]` instead, a case unreachable from
`_program_awg` because groups only exist for channels with non-zero samples. -/
def awg5014PackGroup (awgName el : String) (cid_wfs : CidWfs) (grp : String) :
    (String × List (Int × Int × Int)) × List NonZeroStartWarning :=
  let maxlen := awg5014Maxlen cid_wfs
  ((awg5014WfKey el grp,
    pack_waveform (awg5014GrpWf cid_wfs maxlen grp)
      (awg5014GrpWf cid_wfs maxlen (grp ++ "_m1"))
      (awg5014GrpWf cid_wfs maxlen (grp ++ "_m2"))),
   (awg5014GroupIds grp).filterMap (fun cid =>
     if (awg5014GrpWf cid_wfs maxlen cid).headD 0 ≠ 0 then
       some ⟨el, awgName⟩ else none))

/-- The `packed_waveforms` dictionary of lines 903-928, built in iteration order
over the sequence's elements and, per element, over the channel groups, together
with the warnings logged on the way. -/
def awg5014PackedWaveforms (awgName : String) (elements : List (String × CidWfs))
    (grps : List String) :
    List (String × List (Int × Int × Int)) × List NonZeroStartWarning :=
  (elements.bind (fun e => grps.map (fun grp => (awg5014PackGroup awgName e.1 e.2 grp).1)),
   elements.bind (fun e => grps.bind (fun grp => (awg5014PackGroup awgName e.1 e.2 grp).2)))

theorem foldl_max_init_le (l : List (String × Waveform)) (init : Nat) :
    init ≤ l.foldl (fun m q => max m q.2.length) init := by
  induction l generalizing init with
  | nil => exact Nat.le_refl _
  | cons a rest ih =>
    exact Nat.le_trans (Nat.le_max_left init a.2.length) (ih (max init a.2.length))

theorem length_le_foldl_max (l : List (String × Waveform)) (init : Nat)
    {p : String × Waveform} (hp : p ∈ l) :
    p.2.length ≤ l.foldl (fun m q => max m q.2.length) init := by
  induction l generalizing init with
  | nil => simp at hp
  | cons a rest ih =>
    rcases List.mem_cons.mp hp with rfl | hp'
    · exact Nat.le_trans (Nat.le_max_right init p.2.length)
        (foldl_max_init_le rest (max init p.2.length))
    · exact ih (max init a.2.length) hp'

theorem lookupCid_length_le (cid_wfs : CidWfs) (cid : String) (wf : Waveform)
    (h : lookupCid cid_wfs cid = some wf) : wf.length ≤ awg5014Maxlen cid_wfs := by
  rw [lookupCid] at h
  cases hf : cid_wfs.find? (fun p => p.1 == cid) with
  | none => rw [hf] at h; simp at h
  | some pr =>
    rw [hf] at h
    simp only [Option.map_some', Option.some.injEq] at h
    have hmem : pr ∈ cid_wfs := List.mem_of_find?_eq_some hf
    rw [← h]
    exact length_le_foldl_max cid_wfs 0 hmem

/-- C7. For every element compiled for an AWG5014, within each channel group
every channel's sample array — a missing channel contributing an all-zero array —
is padded with trailing zeros up to `maxlen`, the maximum sample-array length
over the element's channels: after padding the waveform has length `maxlen`, its
original samples are kept, its padded suffix is entirely zero, and a missing
channel yields the all-zero array of length `maxlen`
(pulsar.py lines 904-928). -/
theorem awg5014_group_padding (cid_wfs : CidWfs) (grp cid : String)
    (hcid : cid ∈ awg5014GroupIds grp) :
    (awg5014GrpWf cid_wfs (awg5014Maxlen cid_wfs) cid).length = awg5014Maxlen cid_wfs ∧
    (∀ wf, lookupCid cid_wfs cid = some wf →
      (∀ j : Nat, j < wf.length →
        (awg5014GrpWf cid_wfs (awg5014Maxlen cid_wfs) cid)[j]? = wf[j]?) ∧
      (∀ j : Nat, wf.length ≤ j → j < awg5014Maxlen cid_wfs →
        (awg5014GrpWf cid_wfs (awg5014Maxlen cid_wfs) cid)[j]? = some 0)) ∧
    (lookupCid cid_wfs cid = none →
      awg5014GrpWf cid_wfs (awg5014Maxlen cid_wfs) cid
        = List.replicate (awg5014Maxlen cid_wfs) 0) := by
  refine ⟨?_, ?_, ?_⟩
  · rw [awg5014GrpWf]
    cases hl : lookupCid cid_wfs cid with
    | none => simp
    | some wf =>
      have hle := lookupCid_length_le cid_wfs cid wf hl
      simp only [hl, Option.getD_some, List.length_append, List.length_replicate]
      omega
  · intro wf hl
    constructor
    · intro j hj
      rw [awg5014GrpWf]
      simp only [hl, Option.getD_some]
      rw [List.getElem?_append_left hj]
    · intro j hj1 hj2
      rw [awg5014GrpWf]
      simp only [hl, Option.getD_some]
      rw [List.getElem?_append_right hj1]
      have hle := lookupCid_length_le cid_wfs cid wf hl
      rw [List.getElem?_replicate]
      have : j - wf.length < awg5014Maxlen cid_wfs - wf.length := by omega
      simp [this]
  · intro hl
    rw [awg5014GrpWf]
    simp [hl]

/-- Witness for `awg5014_group_padding`: element with `ch1 = [5]` and
`ch1_m1 = [1, 2]`; `ch1` is padded to `[5, 0]`. -/
theorem awg5014_group_padding_witness :
    awg5014GrpWf [("ch1", [5]), ("ch1_m1", [1, 2])]
        (awg5014Maxlen [("ch1", [5]), ("ch1_m1", [1, 2])]) "ch1" = [5, 0] ∧
    (awg5014GrpWf [("ch1", [5]), ("ch1_m1", [1, 2])]
        (awg5014Maxlen [("ch1", [5]), ("ch1_m1", [1, 2])]) "ch1")[1]? = some 0 := by
  constructor
  · rfl
  · have h := (awg5014_group_padding [("ch1", [5]), ("ch1_m1", [1, 2])] "ch1" "ch1"
      (by decide)).2.1 [(5 : Int)] (by rfl)
    exact h.2 1 (by decide) (by decide)

theorem string_append_right_cancel {a b c : String} (h : a ++ c = b ++ c) : a = b := by
  have hd : a.data ++ c.data = b.data ++ c.data := by
    have h2 := congrArg String.data h
    simpa [String.data_append] using h2
  cases a with
  | mk da =>
    cases b with
    | mk db =>
      simp only at hd
      have := List.append_cancel_right hd
      simp [this]

/-- Two-element input refuting content-based deduplication: elements `A` and `B`
carry identical content `[1, 0]` on channel `ch1`. -/
def c2Elements : List (String × CidWfs) :=
  [("A", [("ch1", [1, 0])]), ("B", [("ch1", [1, 0])])]

/-- C2 (counterexample). On the concrete sequence `c2Elements`, elements `A`
and `B` have identical padded sample content on the single channel group `ch1`,
yet `AWG5014Pulsar._program_awg` stores their packed waveforms under the two
distinct keys `A_ch1` and `B_ch1` (two separate entries with equal blobs), so
identical content does not receive a shared waveform key. -/
theorem awg5014_dedup_counterexample :
    awg5014Grps c2Elements = ["ch1"] ∧
    ((awg5014PackedWaveforms "AWG1" c2Elements (awg5014Grps c2Elements)).1.lookup
        (awg5014WfKey "A" "ch1")
      = (awg5014PackedWaveforms "AWG1" c2Elements (awg5014Grps c2Elements)).1.lookup
        (awg5014WfKey "B" "ch1")) ∧
    ((awg5014PackedWaveforms "AWG1" c2Elements (awg5014Grps c2Elements)).1.lookup
        (awg5014WfKey "A" "ch1")).isSome = true ∧
    awg5014WfKey "A" "ch1" ≠ awg5014WfKey "B" "ch1" ∧
    (awg5014PackedWaveforms "AWG1" c2Elements (awg5014Grps c2Elements)).1.length = 2 := by
  refine ⟨by decide, by decide, by decide, by decide, by decide⟩

/-- C2 (amended). The AWG5014 programming path assigns waveform keys by name,
not by content: the key of element `el` for channel group `grp` is
`el + '_' + grp`, so within one channel group two elements receive the same key
exactly when they have the same element name, independently of their padded
sample content; and the packed-waveform table holds one entry per
(element, group) pair, with no content-based sharing (pulsar.py lines 903-928). -/
theorem awg5014_key_name_based :
    (∀ e1 e2 grp : String,
      awg5014WfKey e1 grp = awg5014WfKey e2 grp ↔ e1 = e2) ∧
    (∀ (awgName : String) (elements : List (String × CidWfs)) (grps : List String),
      (awg5014PackedWaveforms awgName elements grps).1.length
        = elements.length * grps.length) := by
  constructor
  · intro e1 e2 grp
    constructor
    · intro h
      rw [awg5014WfKey, awg5014WfKey] at h
      exact string_append_right_cancel (string_append_right_cancel h)
    · intro h; rw [h]
  · intro awgName elements grps
    induction elements with
    | nil => simp [awg5014PackedWaveforms]
    | cons e rest ih =>
      simp only [awg5014PackedWaveforms, List.cons_bind, List.length_append,
        List.length_map, List.length_cons] at ih ⊢
      rw [ih]
      ring

/-! ### AWG5014 sequencing lists and the non-fatal warning (lines 930-959) -/

/-- The `AWG.generate_awg_file` inputs built at lines 903-959: the packed
waveform dictionary and the per-element sequencing lists. -/
structure Awg5014Program where
  packedWaveforms : List (String × List (Int × Int × Int))
  wfname_l : List (List String)
  nrep_l : List Nat
  wait_l : List Nat
  goto_l : List Nat
  logic_jump_l : List Nat
deriving DecidableEq

/-- The `(wfname, packed)` entry of `awg5014PackGroup` alone — the same
computation with the warning emission of lines 922-924 removed.  Used to state
that the generated program is exactly what it would be without the warning. -/
def awg5014PackGroupQuiet (el : String) (cid_wfs : CidWfs) (grp : String) :
    String × List (Int × Int × Int) :=
  let maxlen := awg5014Maxlen cid_wfs
  (awg5014WfKey el grp,
   pack_waveform (awg5014GrpWf cid_wfs maxlen grp)
     (awg5014GrpWf cid_wfs maxlen (grp ++ "_m1"))
     (awg5014GrpWf cid_wfs maxlen (grp ++ "_m2")))

/-- Lines 903-959 of `AWG5014Pulsar._program_awg`: packed waveforms plus the
sequencing lists.  `awgSequence` is the ordered list of element names of
`sequence.awg_sequence[obj.name]` (line 945-948); the lists are
`nrep_l = [1]*n`, `wait_l = [1]*n` (every element waits for a trigger),
`logic_jump_l = [0]*n` and `goto_l = [0]*n` with `goto_l[-1] = 1`
(lines 953-959; on the empty sequence `goto_l[-1]` would fail in Python, the
model's `set (n-1)` is the identity there).  Returns the program together with
the warnings logged while packing. -/
def awg5014Program (awgName : String) (elements : List (String × CidWfs))
    (awgSequence : List String) (grps : List String) :
    Awg5014Program × List NonZeroStartWarning :=
  let pw := awg5014PackedWaveforms awgName elements grps
  let n := awgSequence.length
  ({ packedWaveforms := pw.1
     wfname_l := grps.map (fun grp => awgSequence.map (fun el => awg5014WfKey el grp))
     nrep_l := List.replicate n 1
     wait_l := List.replicate n 1
     goto_l := (List.replicate n 0).set (n - 1) 1
     logic_jump_l := List.replicate n 0 }, pw.2)

/-- The program of `awg5014Program` recomputed without any warning emission. -/
def awg5014ProgramQuiet (elements : List (String × CidWfs))
    (awgSequence : List String) (grps : List String) : Awg5014Program :=
  let n := awgSequence.length
  { packedWaveforms :=
      elements.bind (fun e => grps.map (fun grp => awg5014PackGroupQuiet e.1 e.2 grp))
    wfname_l := grps.map (fun grp => awgSequence.map (fun el => awg5014WfKey el grp))
    nrep_l := List.replicate n 1
    wait_l := List.replicate n 1
    goto_l := (List.replicate n 0).set (n - 1) 1
    logic_jump_l := List.replicate n 0 }

/-- C8. If an element's padded waveform on some group channel has a non-zero
first sample — and every element of this path waits for a trigger, since
`wait_l` is all ones — then a warning naming the element and the AWG is logged,
and compilation still proceeds: the generated program equals the one computed
with the warning emission removed, so the warning never changes or aborts the
upload (pulsar.py lines 917-928 and 953-959). -/
theorem awg5014_warning_nonfatal (awgName : String)
    (elements : List (String × CidWfs)) (awgSequence : List String)
    (grps : List String) (el : String) (cid_wfs : CidWfs)
    (hmem : (el, cid_wfs) ∈ elements) (grp : String) (hgrp : grp ∈ grps)
    (cid : String) (hcid : cid ∈ awg5014GroupIds grp)
    (hnz : (awg5014GrpWf cid_wfs (awg5014Maxlen cid_wfs) cid).headD 0 ≠ 0) :
    NonZeroStartWarning.mk el awgName
        ∈ (awg5014Program awgName elements awgSequence grps).2 ∧
    (awg5014Program awgName elements awgSequence grps).1
        = awg5014ProgramQuiet elements awgSequence grps ∧
    (awg5014Program awgName elements awgSequence grps).1.wait_l
        = List.replicate awgSequence.length 1 := by
  refine ⟨?_, rfl, rfl⟩
  show NonZeroStartWarning.mk el awgName
    ∈ elements.bind (fun e => grps.bind (fun g => (awg5014PackGroup awgName e.1 e.2 g).2))
  rw [List.mem_bind]
  refine ⟨(el, cid_wfs), hmem, ?_⟩
  rw [List.mem_bind]
  refine ⟨grp, hgrp, ?_⟩
  show NonZeroStartWarning.mk el awgName
    ∈ (awg5014GroupIds grp).filterMap (fun c =>
      if (awg5014GrpWf cid_wfs (awg5014Maxlen cid_wfs) c).headD 0 ≠ 0 then
        some ⟨el, awgName⟩ else none)
  rw [List.mem_filterMap]
  exact ⟨cid, hcid, by rw [if_pos hnz]⟩

/-- Witness for `awg5014_warning_nonfatal`: a one-element sequence whose `ch1`
waveform starts with the non-zero sample 1. -/
theorem awg5014_warning_nonfatal_witness :
    NonZeroStartWarning.mk "A" "AWG1"
        ∈ (awg5014Program "AWG1" [("A", [("ch1", [1])])] ["A"] ["ch1"]).2 ∧
    (awg5014Program "AWG1" [("A", [("ch1", [1])])] ["A"] ["ch1"]).1
        = awg5014ProgramQuiet [("A", [("ch1", [1])])] ["A"] ["ch1"] ∧
    (awg5014Program "AWG1" [("A", [("ch1", [1])])] ["A"] ["ch1"]).1.wait_l
        = List.replicate (["A"] : List String).length 1 :=
  awg5014_warning_nonfatal "AWG1" [("A", [("ch1", [1])])] ["A"] ["ch1"]
    "A" [("ch1", [1])] (by decide) "ch1" (by decide) "ch1" (by decide) (by decide)

/-! ### Per-device programming loop (`Pulsar.program_awgs`, lines 1628-1656) -/

/-- The codeword guard of `AWG5014Pulsar._program_awg` (lines 879-882): for each
element, `wfs[(i, el)]` must be exactly the one-key dictionary
`{'no_codeword': ...}`; otherwise `Exception('AWG5014 does not support
codewords')` is raised.  `ks` is the element's list of codeword keys. -/
def awg5014CodewordOk (ks : List String) : Bool :=
  !(decide (1 < ks.length)) && ks.contains "no_codeword"

/-- The element scan of `AWG5014Pulsar._program_awg` (lines 869-882) reduced to
the generation-time failure it can raise: `els` lists, per element of the
device's sequence, the codeword keys of its waveform dictionary.  Every raise of
`_program_awg` happens here, before `send_awg_file`/`load_awg_file` (line 971),
so a device whose generation fails receives no upload. -/
def awg5014CheckElements (els : List (List String)) : Except String Unit :=
  if els.all awg5014CodewordOk then .ok () else .error "codewords unsupported"

/-- The loop of `Pulsar.program_awgs` (lines 1650-1654): devices are programmed
one after the other by `self._program_awg(obj, sequence)`; a raise propagates
out of `program_awgs` immediately, leaving the uploads already performed for the
earlier devices in place.  Returns the devices that received an upload, in
order, and the propagated error, if any. -/
def programAwgs (progAwg : String → Except String Unit) :
    List String → List String × Option String
  | [] => ([], none)
  | a :: rest =>
    match progAwg a with
    | .ok _ =>
      let r := programAwgs progAwg rest
      (a :: r.1, r.2)
    | .error e => ([], some e)

/-- The per-device codeword-key table of the counterexample run: device `D1`
carries one plain element, device `D2` one codeword-branched element (two keys),
which the AWG5014 generation step rejects. -/
def c3SeqKeys : String → List (List String) := fun a =>
  if a == "D2" then [["no_codeword", "cw1"]] else [["no_codeword"]]

/-- The per-device programming step of the counterexample run: the AWG5014
codeword guard applied to the device's elements. -/
def c3ProgAwg : String → Except String Unit := fun a =>
  awg5014CheckElements (c3SeqKeys a)

/-- C3 (counterexample). Programming devices `D1` and `D2` where `D2`'s
generation step fails: the run raises, yet `D1` has already received its upload
— hardware state was mutated although a device's generation failed, refuting
the all-or-nothing claim (pulsar.py lines 1650-1654 upload each device before
generating the next one's program). -/
theorem program_awgs_counterexample :
    (programAwgs c3ProgAwg ["D1", "D2"]).2.isSome = true ∧
    (programAwgs c3ProgAwg ["D1", "D2"]).1 = ["D1"] := by
  refine ⟨by decide, by decide⟩

/-- C3 (amended). `program_awgs` is sequential and atomic per device only:
if some device's generation step fails, the failing device and every device
after it receive no upload, while every device processed earlier in the same
call has already been uploaded and is not rolled back (pulsar.py lines
1650-1654; per-device raises happen before that device's upload). -/
theorem program_awgs_per_device_atomic (progAwg : String → Except String Unit)
    (awgs : List String) (e : String)
    (h : (programAwgs progAwg awgs).2 = some e) :
    ∃ pre bad rest, awgs = pre ++ bad :: rest ∧
      (∀ a ∈ pre, progAwg a = .ok ()) ∧
      progAwg bad = .error e ∧
      (programAwgs progAwg awgs).1 = pre := by
  induction awgs with
  | nil => simp [programAwgs] at h
  | cons a rest ih =>
    rw [programAwgs] at h
    cases hp : progAwg a with
    | ok u =>
      rw [hp] at h
      simp only at h
      obtain ⟨pre, bad, rest', heq, hpre, hbad, hups⟩ := ih h
      refine ⟨a :: pre, bad, rest', by rw [heq]; rfl, ?_, hbad, ?_⟩
      · intro x hx
        rcases List.mem_cons.mp hx with rfl | hx'
        · cases u; exact hp
        · exact hpre x hx'
      · rw [programAwgs, hp]
        simp [hups]
    | error e' =>
      rw [hp] at h
      simp only [Option.some.injEq] at h
      subst h
      refine ⟨[], a, rest, rfl, by simp, hp, ?_⟩
      rw [programAwgs, hp]

/-- Witness for `program_awgs_per_device_atomic` at the concrete
counterexample run. -/
theorem program_awgs_per_device_atomic_witness :
    ∃ pre bad rest, (["D1", "D2"] : List String) = pre ++ bad :: rest ∧
      (∀ a ∈ pre, c3ProgAwg a = .ok ()) ∧
      c3ProgAwg bad = .error "codewords unsupported" ∧
      (programAwgs c3ProgAwg ["D1", "D2"]).1 = pre :=
  program_awgs_per_device_atomic c3ProgAwg ["D1", "D2"] "codewords unsupported"
    (by decide)

/-! ### UHFQC channel-activity check (`UHFQCPulsar._program_awg`, lines 105-201) -/

/-- Flag `ch_has_waveforms[cid]` of `UHFQCPulsar._program_awg` (lines 131-155): set
when some element of the sequence carries waveform data on channel `cid`. -/
def uhfqcChHasWaveforms (elements : List (String × CidWfs)) (cid : String) : Bool :=
  elements.any (fun e => (lookupCid e.2 cid).isSome)

/-- The outcome of `UHFQCPulsar._program_awg` that claim C5 is about: whether the
device was programmed, and whether it was added to `_awgs_with_waveforms`. -/
structure UhfqcOutcome where
  programmed : Bool
  addedToAwgsWithWaveforms : Bool
deriving DecidableEq

/-- Method `UHFQCPulsar._program_awg` reduced to its channel-activity control flow: the
early return at lines 161-163 tests
`not (ch_has_waveforms['ch1'] or ch_has_waveforms['ch1'])` — the same `'ch1'`
flag twice, exactly as the source reads — and the UHFQC path contains no call of
`self.awgs_with_waveforms(obj.name)` anywhere, so the device is never added to
the has-programmed-waveforms set. -/
def uhfqcProgramAwg (elements : List (String × CidWfs)) : UhfqcOutcome :=
  let ch_has_waveforms := fun cid => uhfqcChHasWaveforms elements cid
  if !(ch_has_waveforms "ch1" || ch_has_waveforms "ch1") then
    { programmed := false, addedToAwgsWithWaveforms := false }
  else
    { programmed := true, addedToAwgsWithWaveforms := false }

/-- C5 (code evaluated at the failing input). A UHFQC whose sequence has
waveform data only on channel `ch2`: one of its channels has waveform data, yet
the device is not programmed — the guard at line 161 reads
`ch_has_waveforms['ch1'] or ch_has_waveforms['ch1']` instead of `... or
ch_has_waveforms['ch2']` — and it is not added to the has-programmed-waveforms
set, contradicting the claim (and the sibling HDAWG8 path, lines 591-602, which
implements both behaviours). -/
theorem uhfqc_ch2_only_bug :
    uhfqcChHasWaveforms [("A", [("ch2", [1])])] "ch2" = true ∧
    uhfqcProgramAwg [("A", [("ch2", [1])])]
      = { programmed := false, addedToAwgsWithWaveforms := false } := by
  refine ⟨by decide, by decide⟩

/-! ### Legacy AWG5014 path (`AWG5014Pulsar._program_awg_old`, lines 1005-1171) -/

/-- One record of `sequence.elements` as read by `_program_awg_old`
(lines 1085-1118): `wfname`, `repetitions`, `trigger_wait`, `goto_target`. -/
structure SeqElement where
  wfname : String
  repetitions : Int
  trigger_wait : Bool
  goto_target : Option String
deriving DecidableEq

/-- The external `Sequence` object as consumed by `_program_awg_old`: its name,
its ordered element records, and the values of its `codewords` dictionary in
iteration order.  The sequence module itself is not under `src/`. -/
structure Sequence where
  name : String
  elements : List SeqElement
  codewords : List String
deriving DecidableEq

/-- Modelled from the spec: `sequence.element_count()` is defined in the external
sequence module (not under `src/`); per §3 a Sequence is an ordered collection of
elements, whose count this returns. -/
def Sequence.element_count (s : Sequence) : Nat := s.elements.length

/-- The exceptions `_program_awg_old` can raise before generating a file:
the repetition-count check of lines 1100-1105 (naming the AWG, the element and
the received count), and the unbound-`wfname` failure reachable at lines
1086-1094 when the first element is codeword-branched and the codewords table is
empty. -/
inductive LegacyErr where
  | repetitionsOutOfRange (awg el : String) (reps : Int)
  | nameError
deriving DecidableEq

/-- The warning log entries of `_program_awg_old` relevant here: the
too-many-elements warning of lines 1058-1062. -/
inductive LegacyWarning where
  | tooLarge
deriving DecidableEq

/-- The hardware/file actions of `_program_awg_old`:
`generate_awg_file`, `send_awg_file`, `load_awg_file` (lines 1132-1139). -/
inductive HwAction where
  | generateFile
  | sendFile
  | loadFile
deriving DecidableEq

/-- What one call of `_program_awg_old` did: warnings logged, file actions
performed, exception raised (if any), and whether an AWG file was produced. -/
structure LegacyResult where
  warnings : List LegacyWarning
  actions : List HwAction
  err : Option LegacyErr
  producedFile : Bool
deriving DecidableEq

/-- The inner loop of lines 1084-1094 for one channel group: an element named
`'codeword'` takes the first entry of `sequence.codewords`; with an empty
codewords table Python leaves `wfname` bound to the previous iteration's value
(threaded here as `prev`, across groups too) and fails with an unbound-variable
error if there is none. -/
def grpWfnamesFold (codewords : List String) (grp : String) :
    List SeqElement → Option String → Except LegacyErr (List String × Option String)
  | [], prev => .ok ([], prev)
  | el :: rest, prev =>
    let newName : Option String :=
      if el.wfname == "codeword" then
        match codewords.head? with
        | some w => some (w ++ "_" ++ grp)
        | none => prev
      else some (el.wfname ++ "_" ++ grp)
    match newName with
    | none => .error .nameError
    | some nm =>
      match grpWfnamesFold codewords grp rest (some nm) with
      | .error e => .error e
      | .ok (names, prev') => .ok (nm :: names, prev')

/-- The `wfname_l` loop of lines 1083-1095: one name list per channel group,
with the `wfname` binding threaded across iterations. -/
def buildWfnameL (seq : Sequence) :
    List String → Option String → Except LegacyErr (List (List String) × Option String)
  | [], prev => .ok ([], prev)
  | grp :: rest, prev =>
    match grpWfnamesFold seq.codewords grp seq.elements prev with
    | .error e => .error e
    | .ok (names, prev') =>
      match buildWfnameL seq rest prev' with
      | .error e => .error e
      | .ok (ls, prev'') => .ok (names :: ls, prev'')

/-- The repetition-count check inside the loop of lines 1098-1105: the first
element whose `repetitions` lies outside `1 ..= 65536` raises an exception
naming the AWG, the element and the received count. -/
def repCheck (awgName : String) : List SeqElement → Option LegacyErr
  | [] => none
  | el :: rest =>
    if el.repetitions < 1 || 65536 < el.repetitions then
      some (.repetitionsOutOfRange awgName el.wfname el.repetitions)
    else repCheck awgName rest

/-- Method `AWG5014Pulsar._program_awg_old` (lines 1005-1171) reduced to its
claim-relevant control flow.  `grps` is the group list computed from `el_wfs`
at lines 1021-1026.  In order: if `sequence.element_count() > 8000` the function
logs a warning and returns (lines 1057-1063) — no exception, no file; then the
`wfname_l` loop runs (lines 1083-1095); then the repetition check (lines
1098-1105) raises before any file action; otherwise, when `len(wfname_l) > 0`,
the AWG file is generated, sent and loaded (lines 1132-1139).  Goto targets are
resolved by the external `sequence.element_index` and modelled as total. -/
def awg5014ProgramOld (awgName : String) (seq : Sequence) (grps : List String) :
    LegacyResult :=
  if 8000 < seq.element_count then
    { warnings := [.tooLarge], actions := [], err := none, producedFile := false }
  else
    match buildWfnameL seq grps none with
    | .error e => { warnings := [], actions := [], err := some e, producedFile := false }
    | .ok (wfname_l, _) =>
      match repCheck awgName seq.elements with
      | some e => { warnings := [], actions := [], err := some e, producedFile := false }
      | none =>
        if 0 < wfname_l.length then
          { warnings := [], actions := [.generateFile, .sendFile, .loadFile],
            err := none, producedFile := true }
        else
          { warnings := [], actions := [], err := none, producedFile := false }

/-- A well-formed element record (repetitions 1). -/
def c4Elem : SeqElement :=
  { wfname := "e", repetitions := 1, trigger_wait := true, goto_target := none }

/-- An 8001-element sequence of well-formed elements (repetitions 1). -/
def c4Seq : Sequence :=
  { name := "seq"
    elements := List.replicate 8001 c4Elem
    codewords := [] }

theorem c4Seq_count : c4Seq.element_count = 8001 :=
  List.length_replicate 8001 c4Elem

/-- C4 (counterexample). On a sequence of 8001 elements the legacy AWG5014
path raises no exception at all: it logs a warning and returns without
generating or sending a file, so programming does not fail with
`ProgramTooLargeError` as claimed — the upload is skipped with only a
warning-level log line (pulsar.py lines 1057-1063). -/
theorem awg5014_too_large_counterexample :
    8000 < c4Seq.element_count ∧
    (awg5014ProgramOld "AWG1" c4Seq ["ch1"]).err = none ∧
    (awg5014ProgramOld "AWG1" c4Seq ["ch1"]).actions = [] ∧
    (awg5014ProgramOld "AWG1" c4Seq ["ch1"]).producedFile = false ∧
    (awg5014ProgramOld "AWG1" c4Seq ["ch1"]).warnings = [LegacyWarning.tooLarge] := by
  have h : 8000 < c4Seq.element_count := by rw [c4Seq_count]; omega
  have hres : awg5014ProgramOld "AWG1" c4Seq ["ch1"]
      = { warnings := [.tooLarge], actions := [], err := none,
          producedFile := false } := by
    rw [awg5014ProgramOld, if_pos h]
  exact ⟨h, by rw [hres], by rw [hres], by rw [hres], by rw [hres]⟩

/-- C4 (amended). In the legacy AWG5014 path, a program exceeding 8000
elements causes programming to abort before any file generation or upload with a
warning-level log message; no exception (in particular no
`ProgramTooLargeError`) is raised, and nothing is truncated or uploaded
(pulsar.py lines 1057-1063; the non-legacy `_program_awg` performs no
element-count check at all). -/
theorem awg5014_too_large_aborts (awgName : String) (seq : Sequence)
    (grps : List String) (h : 8000 < seq.element_count) :
    awg5014ProgramOld awgName seq grps
      = { warnings := [.tooLarge], actions := [], err := none,
          producedFile := false } := by
  rw [awg5014ProgramOld, if_pos h]

/-- Witness for `awg5014_too_large_aborts` at the 8001-element sequence. -/
theorem awg5014_too_large_aborts_witness :
    awg5014ProgramOld "AWG2" c4Seq ["ch1", "ch2"]
      = { warnings := [.tooLarge], actions := [], err := none,
          producedFile := false } :=
  awg5014_too_large_aborts "AWG2" c4Seq ["ch1", "ch2"]
    (by rw [c4Seq_count]; omega)

/-- An element record with the out-of-range repetition count 0. -/
def c10Elem : SeqElement :=
  { wfname := "e", repetitions := 0, trigger_wait := true, goto_target := none }

/-- An 8001-element sequence whose elements all carry the out-of-range
repetition count 0. -/
def c10Seq : Sequence :=
  { name := "seq"
    elements := List.replicate 8001 c10Elem
    codewords := [] }

theorem c10Seq_count : c10Seq.element_count = 8001 :=
  List.length_replicate 8001 c10Elem

/-- C10 (counterexample). A sequence of 8001 elements each with repetition
count 0: every element's repetition count is out of range, yet the legacy path
raises no exception — the element-count early return of lines 1057-1063 is
taken before the repetition check of lines 1098-1105 ever runs. -/
theorem awg5014_repcheck_counterexample :
    (∃ el ∈ c10Seq.elements, el.repetitions < 1) ∧
    (awg5014ProgramOld "AWG1" c10Seq ["ch1"]).err = none := by
  constructor
  · refine ⟨c10Elem, ?_, by norm_num [c10Elem]⟩
    show c10Elem ∈ List.replicate 8001 c10Elem
    exact List.mem_replicate.mpr ⟨by omega, rfl⟩
  · have h : 8000 < c10Seq.element_count := by rw [c10Seq_count]; omega
    rw [awg5014ProgramOld, if_pos h]

theorem grpWfnamesFold_ok_of_no_codeword (codewords : List String) (grp : String)
    (els : List SeqElement) (prev : Option String)
    (h : ∀ el ∈ els, el.wfname ≠ "codeword") :
    ∃ names prev', grpWfnamesFold codewords grp els prev = .ok (names, prev') := by
  induction els generalizing prev with
  | nil => exact ⟨[], prev, rfl⟩
  | cons el rest ih =>
    have hel : el.wfname ≠ "codeword" := h el (List.mem_cons_self _ _)
    have hbe : (el.wfname == "codeword") = false := by
      simpa using hel
    obtain ⟨names, prev', hrec⟩ :=
      ih (some (el.wfname ++ "_" ++ grp)) (fun x hx => h x (List.mem_cons_of_mem _ hx))
    refine ⟨(el.wfname ++ "_" ++ grp) :: names, prev', ?_⟩
    rw [grpWfnamesFold]
    simp [hbe, hrec]

theorem buildWfnameL_ok_of_no_codeword (seq : Sequence) (grps : List String)
    (prev : Option String)
    (h : ∀ el ∈ seq.elements, el.wfname ≠ "codeword") :
    ∃ ls prev', buildWfnameL seq grps prev = .ok (ls, prev') := by
  induction grps generalizing prev with
  | nil => exact ⟨[], prev, rfl⟩
  | cons grp rest ih =>
    obtain ⟨names, prev', hg⟩ :=
      grpWfnamesFold_ok_of_no_codeword seq.codewords grp seq.elements prev h
    obtain ⟨ls, prev'', hrec⟩ := ih prev'
    refine ⟨names :: ls, prev'', ?_⟩
    rw [buildWfnameL]
    simp [hg, hrec]

theorem repCheck_some_of_bad (awgName : String) (els : List SeqElement)
    (hbad : ∃ el ∈ els, el.repetitions < 1 ∨ 65536 < el.repetitions) :
    ∃ elname reps, repCheck awgName els
        = some (.repetitionsOutOfRange awgName elname reps) ∧
      ∃ e ∈ els, e.wfname = elname ∧ e.repetitions = reps ∧
        (reps < 1 ∨ 65536 < reps) := by
  induction els with
  | nil => simp at hbad
  | cons el rest ih =>
    by_cases hel : el.repetitions < 1 ∨ 65536 < el.repetitions
    · refine ⟨el.wfname, el.repetitions, ?_, el, List.mem_cons_self _ _, rfl, rfl, hel⟩
      rw [repCheck]
      have : (el.repetitions < 1 || 65536 < el.repetitions) = true := by
        rcases hel with h1 | h1 <;> simp [h1]
      rw [if_pos this]
    · obtain ⟨elx, hmem, hx⟩ := hbad
      rcases List.mem_cons.mp hmem with rfl | hmem'
      · exact absurd hx hel
      · obtain ⟨elname, reps, hrep, e, hmeme, h1, h2, h3⟩ := ih ⟨elx, hmem', hx⟩
        refine ⟨elname, reps, ?_, e, List.mem_cons_of_mem _ hmeme, h1, h2, h3⟩
        rw [repCheck]
        push_neg at hel
        have h1 : ¬ (el.repetitions < 1) := by omega
        have h2 : ¬ (65536 < el.repetitions) := by omega
        have hcond : (el.repetitions < 1 || 65536 < el.repetitions) = false := by
          simp [h1, h2]
        rw [if_neg (by simp [hcond])]
        exact hrep

/-- C10 (amended). In the legacy AWG5014 path, provided the sequence has at
most 8000 elements (otherwise the element-count early return of lines 1057-1063
skips programming before this check) and contains no `'codeword'` placeholder
element (whose name resolution at lines 1086-1094 precedes the check and can
itself fail), if any element's repetition count is less than 1 or greater than
65536, an exception naming the AWG and the element is raised and no AWG file is
generated or sent to the device (pulsar.py lines 1098-1105, 1132-1139). -/
theorem awg5014_repcheck_raises (awgName : String) (seq : Sequence)
    (grps : List String) (hcount : seq.element_count ≤ 8000)
    (hnocw : ∀ el ∈ seq.elements, el.wfname ≠ "codeword")
    (hbad : ∃ el ∈ seq.elements, el.repetitions < 1 ∨ 65536 < el.repetitions) :
    (∃ elname reps,
      (awg5014ProgramOld awgName seq grps).err
          = some (.repetitionsOutOfRange awgName elname reps) ∧
      ∃ e ∈ seq.elements, e.wfname = elname ∧ e.repetitions = reps ∧
        (reps < 1 ∨ 65536 < reps)) ∧
    (awg5014ProgramOld awgName seq grps).actions = [] ∧
    (awg5014ProgramOld awgName seq grps).producedFile = false := by
  have hif : ¬ (8000 < seq.element_count) := by omega
  obtain ⟨ls, prev', hbuild⟩ := buildWfnameL_ok_of_no_codeword seq grps none hnocw
  obtain ⟨elname, reps, hrep, hwit⟩ := repCheck_some_of_bad awgName seq.elements hbad
  have hres : awg5014ProgramOld awgName seq grps
      = { warnings := [], actions := [], err := some (.repetitionsOutOfRange awgName elname reps),
          producedFile := false } := by
    rw [awg5014ProgramOld]
    rw [if_neg hif, hbuild, hrep]
  rw [hres]
  exact ⟨⟨elname, reps, rfl, hwit⟩, rfl, rfl⟩

/-- Witness for `awg5014_repcheck_raises`: a one-element sequence with
repetition count 70000. -/
theorem awg5014_repcheck_raises_witness :
    (∃ elname reps,
      (awg5014ProgramOld "AWG1"
          { name := "s"
            elements := [{ wfname := "X", repetitions := 70000,
                           trigger_wait := true, goto_target := none }]
            codewords := [] } ["ch1"]).err
          = some (.repetitionsOutOfRange "AWG1" elname reps) ∧
      ∃ e ∈ ({ name := "s"
               elements := [{ wfname := "X", repetitions := 70000,
                              trigger_wait := true, goto_target := none }]
               codewords := [] } : Sequence).elements,
        e.wfname = elname ∧ e.repetitions = reps ∧ (reps < 1 ∨ 65536 < reps)) ∧
    (awg5014ProgramOld "AWG1"
        { name := "s"
          elements := [{ wfname := "X", repetitions := 70000,
                         trigger_wait := true, goto_target := none }]
          codewords := [] } ["ch1"]).actions = [] ∧
    (awg5014ProgramOld "AWG1"
        { name := "s"
          elements := [{ wfname := "X", repetitions := 70000,
                         trigger_wait := true, goto_target := none }]
          codewords := [] } ["ch1"]).producedFile = false :=
  awg5014_repcheck_raises "AWG1"
    { name := "s"
      elements := [{ wfname := "X", repetitions := 70000,
                     trigger_wait := true, goto_target := none }]
      codewords := [] } ["ch1"] (by decide) (by decide) (by decide)

end PulsarModel
